import Mathlib

/-!
Shallow embedding of `src/plugins/rocketpool.py`, the event-ingestion,
deduplication/ordering and dispatch pipeline of the RocketPool cog.

Modelling conventions:
* contract addresses and transaction hashes are `Nat`;
* `self.mapping` (address → {event type → display name}) is an association
  list `Mapping`;
* Python float scores (`blockNumber + transactionIndex / 1000`, line 176)
  are modelled as exact rationals `ℚ`;
* the Discord embed built by `create_embed` is abstracted to the raw event
  itself (the embed is a pure rendering of the event); the one numeric
  transformation the spec talks about, the `amount`/`value` fixed-point
  scaling of lines 104-106, is embedded separately as `scale_args`;
* exceptions (`KeyError` on an unknown address, a failing channel send)
  are modelled by an explicit error flag / aborted dispatch, so that the
  partially mutated state they leave behind is preserved;
* Python `sorted` (a stable merge sort) is `List.mergeSort`, which is the
  stable merge sort of the Lean core library.
-/

namespace RocketPool

/-- A raw log entry as returned by a web3 event filter: the fields of the
`event` dict read by `check_for_new_events` (lines 164-188). -/
structure RawEvent where
  address : Nat
  eventType : String
  transactionHash : Nat
  blockNumber : Nat
  transactionIndex : Nat
deriving DecidableEq, Repr

/-- `self.mapping` (line 49): contract address → the configured dict of
event type name → display name for that contract. -/
abbrev Mapping := List (Nat × List (String × String))

/-- `self.mapping[event['address']]` (lines 166, 173): association-list
lookup of the per-address event dict. -/
def lookupAddr (mapping : Mapping) (a : Nat) : Option (List (String × String)) :=
  (mapping.find? (fun p => p.1 == a)).map (fun p => p.2)

/-- `event["event"] in events` membership plus the
`self.mapping[event['address']][event["event"]]` lookup (lines 166, 173):
`some displayName` when the event type is declared, `none` otherwise. -/
def lookupEvent (evs : List (String × String)) (ty : String) : Option String :=
  (evs.find? (fun p => p.1 == ty)).map (fun p => p.2)

/-- Line 176: `score = event["blockNumber"] + (event["transactionIndex"] / 1000)`. -/
def eventScore (e : RawEvent) : ℚ :=
  (e.blockNumber : ℚ) + (e.transactionIndex : ℚ) / 1000

/-- One entry of the `messages` list built on lines 178-182; the embed is
abstracted by the raw event it renders. -/
structure Message where
  score : ℚ
  event : RawEvent
  event_name : String
deriving DecidableEq, Repr

/-- The mutable state threaded through the collection loop of
`check_for_new_events` (lines 160-188): the pending `messages` list, the
`self.tnx_cache` list, and whether an uncaught exception (`KeyError` from
`self.mapping[event['address']]`) has been raised. -/
structure CollectSt where
  messages : List Message
  cache : List Nat
  err : Bool
deriving DecidableEq, Repr

/-- The body of the inner loop of `check_for_new_events` (lines 165-188)
for one event. Once an exception has been raised processing stops (the
state is returned unchanged). A missing address raises `KeyError`
(line 166); an undeclared event type is filtered out by the membership
check on line 166; a transaction hash already in `self.tnx_cache` is
skipped (lines 169-171); otherwise the scored message is appended and the
hash recorded (lines 176-185). -/
def collectEvent (mapping : Mapping) (st : CollectSt) (e : RawEvent) : CollectSt :=
  if st.err then st else
  match lookupAddr mapping e.address with
  | none => ⟨st.messages, st.cache, true⟩
  | some evs =>
    match lookupEvent evs e.eventType with
    | none => st
    | some event_name =>
      if e.transactionHash ∈ st.cache then st
      else
        ⟨st.messages ++ [⟨eventScore e, e, event_name⟩],
         st.cache ++ [e.transactionHash], false⟩

/-- Line 165: `for event in reversed(list(events.get_new_entries())):` —
one filter batch is walked newest-first. -/
def collectBatch (mapping : Mapping) (st : CollectSt) (batch : List RawEvent) : CollectSt :=
  batch.reverse.foldl (collectEvent mapping) st

/-- Lines 160-188: the whole collection phase of one tick, over the list
of per-filter batches returned by `get_new_entries`, starting from the
current `self.tnx_cache`. -/
def collectAll (mapping : Mapping) (cache : List Nat) (batches : List (List RawEvent)) : CollectSt :=
  batches.foldl (collectBatch mapping) ⟨[], cache, false⟩

/-- `"odao" in event["event_name"]` (line 194) and the
`keyword in arg_key.lower()` checks (line 105): Python substring
containment. -/
def strContains (hay needle : String) : Bool :=
  hay.toList.tails.any (fun t => needle.toList.isPrefixOf t)

/-- The sort key of line 193: messages compare by `score`. -/
def msgLE (a b : Message) : Bool := a.score ≤ b.score

/-- Line 193: `sorted(messages, key=lambda a: a["score"], reverse=False)` —
Python's stable sort, embedded as the stable merge sort of the core
library. -/
def sortMessages (msgs : List Message) : List Message :=
  msgs.mergeSort msgLE

/-- Line 194: the routing test — a message whose display name contains
`"odao"` goes to the oDAO channel, every other one to the default
channel. -/
def isOdao (event_name : String) : Bool := strContains event_name "odao"

/-- Lines 193-197: send each sorted message in turn. `sendOk i` tells
whether the i-th send of the tick succeeds; the sends carry no `try`, so
the first failing send raises and the remaining messages are never
attempted. Returns the attempted sends — `(index, routed to oDAO?,
message)`, the failing one included — and whether the loop completed. -/
def dispatchFrom (sendOk : Nat → Bool) : Nat → List Message → List (Nat × Bool × Message) × Bool
  | _, [] => ([], true)
  | i, m :: rest =>
    if sendOk i then
      let r := dispatchFrom sendOk (i + 1) rest
      ((i, isOdao m.event_name, m) :: r.1, r.2)
    else ([(i, isOdao m.event_name, m)], false)

/-- The dispatch loop of lines 193-197, starting at send index 0. -/
def dispatch (sendOk : Nat → Bool) (msgs : List Message) : List (Nat × Bool × Message) × Bool :=
  dispatchFrom sendOk 0 msgs

/-- Line 200: `self.tnx_cache = self.tnx_cache[-1000:]` — keep the last
`n` entries of a list. -/
def takeLast (n : Nat) (l : List Nat) : List Nat :=
  l.drop (l.length - n)

/-- Outcome of one call of `check_for_new_events`: the sends attempted,
the resulting `self.tnx_cache`, and whether the call returned without an
uncaught exception. -/
structure TickResult where
  sent : List (Nat × Bool × Message)
  cache : List Nat
  ok : Bool
deriving DecidableEq, Repr

/-- `check_for_new_events` (lines 155-200): collect and dedup the new
entries of every filter (mutating `self.tnx_cache` as it goes), sort the
pending messages by score, dispatch them in that order, and on normal
completion trim the cache to its last 1000 entries. A `KeyError` during
collection aborts before any send and leaves the partially grown cache;
a failing send aborts the remaining sends and skips the trim. The
`if not self.loaded: return` guard of line 156 is not modelled: the
embedding is only entered on the loaded path, exactly as `run_loop`
guarantees. -/
def check_for_new_events (mapping : Mapping) (cache : List Nat)
    (batches : List (List RawEvent)) (sendOk : Nat → Bool) : TickResult :=
  let c := collectAll mapping cache batches
  if c.err then ⟨[], c.cache, false⟩
  else
    let d := dispatch sendOk (sortMessages c.messages)
    if d.2 then ⟨d.1, takeLast 1000 c.cache, true⟩
    else ⟨d.1, c.cache, false⟩

/-- The cog state touched by `run_loop`: `self.loaded` (the health flag),
`self.tnx_cache`, and `self.mapping`. -/
structure CogState where
  loaded : Bool
  tnx_cache : List Nat
  mapping : Mapping
deriving DecidableEq, Repr

/-- `self.__init__(self.bot)` as called from `run_loop` (lines 20-51,
149-153): `__init__` first resets `loaded = True`, `tnx_cache = []` and
`mapping = {}` (lines 22-26) and then rebuilds the registry, filters and
mapping from configuration (lines 28-49), which can raise; when it
raises, the `except` handler of `run_loop` (line 152) sets
`loaded = False`, leaving the freshly emptied cache behind. `initOk`
tells whether the rebuild succeeds. -/
def reinit (config : Mapping) (initOk : Bool) : CogState :=
  if initOk then ⟨true, [], config⟩ else ⟨false, [], []⟩

/-- One iteration of the 15-second `run_loop` task (lines 141-153). When
`self.loaded` holds, `check_for_new_events` runs; on success the loop
returns early. On an uncaught error `loaded` is cleared and — still in
the same iteration — `__init__` is attempted. When `self.loaded` is
already false the iteration goes straight to `__init__`. Returns the new
state and the sends attempted during the iteration. -/
def run_loop (config : Mapping) (batches : List (List RawEvent)) (sendOk : Nat → Bool)
    (initOk : Bool) (st : CogState) : CogState × List (Nat × Bool × Message) :=
  if st.loaded then
    let r := check_for_new_events st.mapping st.tnx_cache batches sendOk
    if r.ok then (⟨st.loaded, r.cache, st.mapping⟩, r.sent)
    else (reinit config initOk, r.sent)
  else (reinit config initOk, [])

/-- `arg_key.lower()` (line 105): lowercase every character of the key. -/
def lowerStr (s : String) : String := String.mk (s.toList.map Char.toLower)

/-- Line 105: does the argument key name an amount — i.e. does its
lowercase form contain `"amount"` or `"value"`? -/
def keyMatches (k : String) : Bool :=
  ["amount", "value"].any (fun kw => strContains (lowerStr k) kw)

/-- Lines 104-106 of `create_embed`: for every argument whose key
contains `"amount"` or `"value"` (case-insensitively), replace the value
by its quotient by 10^18; every other argument is left alone. Argument
values are modelled as exact rationals. -/
def scale_args (args : List (String × ℚ)) : List (String × ℚ) :=
  args.map (fun p => if keyMatches p.1 then (p.1, p.2 / 10 ^ 18) else p)

/-! Concrete sample data for scenarios, counterexamples and witnesses. -/

/-- A sample configuration mapping: contract address 1 declares the event
type `"Deposit"` with display name `"pool_deposit"`; contract address 2
declares `"MemberAdd"` with display name `"odao_member_add"`. -/
def mapping0 : Mapping :=
  [(1, [("Deposit", "pool_deposit")]), (2, [("MemberAdd", "odao_member_add")])]

/-- A deposit in block 500 at transaction index 2, hash 100. -/
def ev2 : RawEvent := ⟨1, "Deposit", 100, 500, 2⟩

/-- A deposit in block 500 at transaction index 5, hash 101. -/
def ev5 : RawEvent := ⟨1, "Deposit", 101, 500, 5⟩

/-- An event from address 9, which the configuration does not map:
processing it raises `KeyError` on line 166. -/
def evBad : RawEvent := ⟨9, "Deposit", 102, 500, 0⟩

/-- The deposit of `ev2` re-announced after a reorg: same transaction
hash 100, mined anew in block 501. -/
def evReorg : RawEvent := ⟨1, "Deposit", 100, 501, 0⟩

/-- An event whose type `"Withdraw"` is not declared for address 1. -/
def evUnmapped : RawEvent := ⟨1, "Withdraw", 103, 500, 0⟩

/-- A channel that accepts every send. -/
def sendAll : Nat → Bool := fun _ => true

/-- A channel whose very first send of the tick fails. -/
def sendFail0 : Nat → Bool := fun i => decide (0 < i)

/-- The message built for `ev2`. -/
def msgEv2 : Message := ⟨eventScore ev2, ev2, "pool_deposit"⟩

/-- The message built for `ev5`. -/
def msgEv5 : Message := ⟨eventScore ev5, ev5, "pool_deposit"⟩

/-- The message built for `evReorg`. -/
def msgReorg : Message := ⟨eventScore evReorg, evReorg, "pool_deposit"⟩

/-! Helper lemmas. -/

theorem msgLE_trans (a b c : Message) (hab : msgLE a b) (hbc : msgLE b c) : msgLE a c := by
  simp only [msgLE, decide_eq_true_eq] at hab hbc ⊢
  exact le_trans hab hbc

theorem msgLE_total (a b : Message) : msgLE a b || msgLE b a := by
  simp only [msgLE, Bool.or_eq_true, decide_eq_true_eq]
  exact le_total a.score b.score

/-- The sort of line 193 orders the pending messages by non-decreasing
score. -/
theorem sortMessages_pairwise (msgs : List Message) :
    (sortMessages msgs).Pairwise (fun a b => a.score ≤ b.score) := by
  have h := List.sorted_mergeSort
    (fun a b c => msgLE_trans a b c) (fun a b => msgLE_total a b) msgs
  exact h.imp (fun hab => by simpa [msgLE, decide_eq_true_eq] using hab)

/-- The messages actually attempted by the dispatch loop are, in order, a
sublist of the sorted pending list. -/
theorem dispatchFrom_sublist (sendOk : Nat → Bool) :
    ∀ (msgs : List Message) (i : Nat),
      List.Sublist ((dispatchFrom sendOk i msgs).1.map (fun x => x.2.2)) msgs
  | [], _ => by simp [dispatchFrom]
  | m :: rest, i => by
    by_cases h : sendOk i
    · simpa [dispatchFrom, h] using
        List.Sublist.cons₂ m (dispatchFrom_sublist sendOk rest (i + 1))
    · simp [dispatchFrom, h]

/-- An invariant preserved by `collectEvent` is preserved by folding it
over any list of events. -/
theorem foldl_collect_inv (mapping : Mapping) (P : CollectSt → Prop)
    (hP : ∀ st e, P st → P (collectEvent mapping st e)) :
    ∀ (l : List RawEvent) (st : CollectSt), P st → P (l.foldl (collectEvent mapping) st)
  | [], _, h => h
  | e :: l, st, h => foldl_collect_inv mapping P hP l _ (hP st e h)

/-- An invariant preserved by `collectEvent` is preserved by the whole
collection phase. -/
theorem foldl_batches_inv (mapping : Mapping) (P : CollectSt → Prop)
    (hP : ∀ st e, P st → P (collectEvent mapping st e)) :
    ∀ (bs : List (List RawEvent)) (st : CollectSt), P st → P (bs.foldl (collectBatch mapping) st)
  | [], _, h => h
  | b :: bs, st, h =>
    foldl_batches_inv mapping P hP bs _
      (foldl_collect_inv mapping P hP b.reverse st h)

/-- Every pending message carries the score of line 176, computed from
its own event. -/
theorem collect_score_inv (mapping : Mapping) (st : CollectSt) (e : RawEvent)
    (h : ∀ m ∈ st.messages, m.score = eventScore m.event) :
    ∀ m ∈ (collectEvent mapping st e).messages, m.score = eventScore m.event := by
  unfold collectEvent
  split
  · exact h
  · split
    · exact h
    · split
      · exact h
      · split
        · exact h
        · intro m hm
          rcases List.mem_append.mp hm with hm | hm
          · exact h m hm
          · rcases List.mem_singleton.mp hm with rfl
            rfl

/-- `collectEvent` only ever appends to the cache: the starting cache is
a prefix of the cache it returns. -/
theorem collect_cache_extends (mapping : Mapping) (cache0 : List Nat) (st : CollectSt)
    (e : RawEvent) (h : ∃ t, st.cache = cache0 ++ t) :
    ∃ t, (collectEvent mapping st e).cache = cache0 ++ t := by
  obtain ⟨t, ht⟩ := h
  unfold collectEvent
  split
  · exact ⟨t, ht⟩
  · split
    · exact ⟨t, ht⟩
    · split
      · exact ⟨t, ht⟩
      · split
        · exact ⟨t, ht⟩
        · exact ⟨t ++ [e.transactionHash], by simp [ht]⟩

/-- Polling filters that all return no entries leaves the collection
state untouched. -/
theorem collectAll_empty (mapping : Mapping) (cache : List Nat) :
    ∀ (batches : List (List RawEvent)), (∀ b ∈ batches, b = []) →
      collectAll mapping cache batches = ⟨[], cache, false⟩ := by
  intro batches hb
  unfold collectAll
  induction batches with
  | nil => rfl
  | cons b bs ih =>
    have hb0 : b = [] := hb b (List.mem_cons_self b bs)
    subst hb0
    simpa [collectBatch] using ih (fun b hbm => hb b (List.mem_cons_of_mem _ hbm))

/-- `self.tnx_cache[-1000:]` has at most 1000 entries. -/
theorem takeLast_length_le (n : Nat) (l : List Nat) : (takeLast n l).length ≤ n := by
  simp only [takeLast, List.length_drop]
  omega

/-- `self.tnx_cache[-1000:]` keeps a suffix: only the oldest entries are
dropped. -/
theorem takeLast_suffix (n : Nat) (l : List Nat) : takeLast n l <:+ l :=
  List.drop_suffix _ _

/-- When the list already fits, `self.tnx_cache[-1000:]` is the identity. -/
theorem takeLast_of_le (n : Nat) (l : List Nat) (h : l.length ≤ n) : takeLast n l = l := by
  simp [takeLast, Nat.sub_eq_zero_of_le h]

/-- `__init__` always resets the transaction cache, whether or not the
rebuild succeeds. -/
theorem reinit_cache (config : Mapping) (initOk : Bool) : (reinit config initOk).tnx_cache = [] := by
  unfold reinit
  split <;> rfl

/-- A tick that returns normally has trimmed the cache to at most 1000
entries. -/
theorem tick_ok_cache_le (mapping : Mapping) (cache : List Nat)
    (batches : List (List RawEvent)) (sendOk : Nat → Bool)
    (h : (check_for_new_events mapping cache batches sendOk).ok = true) :
    (check_for_new_events mapping cache batches sendOk).cache.length ≤ 1000 := by
  unfold check_for_new_events at h ⊢
  by_cases hc : (collectAll mapping cache batches).err
  · simp [hc] at h
  · by_cases hd : (dispatch sendOk (sortMessages (collectAll mapping cache batches).messages)).2
    · simpa [hc, hd] using takeLast_length_le 1000 (collectAll mapping cache batches).cache
    · simp [hc, hd] at h

/-! Claim theorems. -/

/-- C10: an event whose type name is not declared in the configuration
mapping of its originating contract address produces no message and does
not touch the transaction cache — the membership check of line 166 comes
before both the dedup check and the cache append, so this holds whatever
the cache contains. -/
theorem unmapped_event_is_dropped (mapping : Mapping) (msgs : List Message)
    (cache : List Nat) (e : RawEvent) (evs : List (String × String))
    (ha : lookupAddr mapping e.address = some evs)
    (hev : lookupEvent evs e.eventType = none) :
    collectEvent mapping ⟨msgs, cache, false⟩ e = ⟨msgs, cache, false⟩ := by
  simp [collectEvent, ha, hev]

/-- Witness for C10: address 1 is configured, but its configuration does
not declare the event type `"Withdraw"`, so the poll drops `evUnmapped`
without recording its hash — even though hash 103 is not in the cache. -/
theorem unmapped_event_is_dropped_witness :
    lookupAddr mapping0 evUnmapped.address = some [("Deposit", "pool_deposit")] ∧
    lookupEvent [("Deposit", "pool_deposit")] evUnmapped.eventType = none ∧
    collectEvent mapping0 ⟨[], [100], false⟩ evUnmapped = ⟨[], [100], false⟩ :=
  ⟨by decide, by decide,
    unmapped_event_is_dropped mapping0 [] [100] evUnmapped
      [("Deposit", "pool_deposit")] (by decide) (by decide)⟩

unseal Rat.add Rat.mul Rat.inv Rat.sub List.merge List.mergeSort in
/-- C2: an event whose transaction hash is already in `tnx_cache` is
skipped — no message is built and the hash is not appended again. The
closed conjuncts replay the reorg re-announcement scenario: `ev2` is
delivered in one poll, and `evReorg` (the same transaction hash polled
again in the next tick) is dropped, leaving the cache unchanged. -/
theorem seen_hash_is_skipped (mapping : Mapping) (msgs : List Message)
    (cache : List Nat) (e : RawEvent) (evs : List (String × String))
    (ha : lookupAddr mapping e.address = some evs)
    (hin : e.transactionHash ∈ cache) :
    collectEvent mapping ⟨msgs, cache, false⟩ e = ⟨msgs, cache, false⟩ ∧
    (check_for_new_events mapping0 (check_for_new_events mapping0 [] [[ev2]] sendAll).cache
        [[evReorg]] sendAll).sent = [] ∧
    (check_for_new_events mapping0 (check_for_new_events mapping0 [] [[ev2]] sendAll).cache
        [[evReorg]] sendAll).cache =
      (check_for_new_events mapping0 [] [[ev2]] sendAll).cache := by
  refine ⟨?_, by decide, by decide⟩
  cases hle : lookupEvent evs e.eventType with
  | none => simp [collectEvent, ha, hle]
  | some nm => simp [collectEvent, ha, hle, hin]

/-- Witness for C2: hash 100 is already cached, so re-polling `ev2`
changes nothing. -/
theorem seen_hash_is_skipped_witness :
    lookupAddr mapping0 ev2.address = some [("Deposit", "pool_deposit")] ∧
    ev2.transactionHash ∈ [100] ∧
    collectEvent mapping0 ⟨[], [100], false⟩ ev2 = ⟨[], [100], false⟩ :=
  ⟨by decide, by decide,
    (seen_hash_is_skipped mapping0 [] [100] ev2
      [("Deposit", "pool_deposit")] (by decide) (by decide)).1⟩

/-- C7: each filter batch is iterated in reverse of the order the filter
returned it (line 165) — the whole batch collection is a right fold over
the chronological batch — and therefore, when a reorg makes the same
transaction hash show up twice in one batch, the newest occurrence is
the one recorded and delivered while the older near-duplicate is
discarded by the dedup check. -/
theorem newest_entry_preferred (mapping : Mapping) (msgs : List Message)
    (cache : List Nat) (eOld eNew : RawEvent)
    (evsO evsN : List (String × String)) (nmN : String)
    (haO : lookupAddr mapping eOld.address = some evsO)
    (haN : lookupAddr mapping eNew.address = some evsN)
    (hevN : lookupEvent evsN eNew.eventType = some nmN)
    (hhash : eOld.transactionHash = eNew.transactionHash)
    (hnotin : eNew.transactionHash ∉ cache) :
    (∀ (st : CollectSt) (batch : List RawEvent),
      collectBatch mapping st batch =
        batch.foldr (fun e acc => collectEvent mapping acc e) st) ∧
    collectBatch mapping ⟨msgs, cache, false⟩ [eOld, eNew] =
      ⟨msgs ++ [⟨eventScore eNew, eNew, nmN⟩],
       cache ++ [eNew.transactionHash], false⟩ := by
  constructor
  · intro st batch
    simp [collectBatch, List.foldl_reverse]
  · have hmem : eOld.transactionHash ∈ cache ++ [eNew.transactionHash] := by
      simp [hhash]
    cases hleO : lookupEvent evsO eOld.eventType with
    | none => simp [collectBatch, collectEvent, haO, haN, hevN, hnotin, hleO]
    | some nmO => simp [collectBatch, collectEvent, haO, haN, hevN, hnotin, hleO, hmem]

/-- Witness for C7: `ev2` and its reorg re-mining `evReorg` share hash
100; iterating the batch newest-first records the block-501 version and
drops the block-500 one. -/
theorem newest_entry_preferred_witness :
    lookupAddr mapping0 ev2.address = some [("Deposit", "pool_deposit")] ∧
    lookupAddr mapping0 evReorg.address = some [("Deposit", "pool_deposit")] ∧
    lookupEvent [("Deposit", "pool_deposit")] evReorg.eventType = some "pool_deposit" ∧
    ev2.transactionHash = evReorg.transactionHash ∧
    evReorg.transactionHash ∉ ([] : List Nat) ∧
    collectBatch mapping0 ⟨[], [], false⟩ [ev2, evReorg] =
      ⟨[⟨eventScore evReorg, evReorg, "pool_deposit"⟩], [100], false⟩ :=
  ⟨by decide, by decide, by decide, by decide, by decide,
    (newest_entry_preferred mapping0 [] [] ev2 evReorg
      [("Deposit", "pool_deposit")] [("Deposit", "pool_deposit")] "pool_deposit"
      (by decide) (by decide) (by decide) (by decide) (by decide)).2⟩

/-- C8: a tick whose filters all return no new entries produces no
messages and leaves `tnx_cache` exactly unchanged (given it held at most
1000 entries), and a second such tick in succession does the same. -/
theorem empty_poll_is_noop (mapping : Mapping) (cache : List Nat)
    (batches : List (List RawEvent)) (sendOk : Nat → Bool)
    (hb : ∀ b ∈ batches, b = []) (hc : cache.length ≤ 1000) :
    check_for_new_events mapping cache batches sendOk = ⟨[], cache, true⟩ ∧
    check_for_new_events mapping
      (check_for_new_events mapping cache batches sendOk).cache batches sendOk =
      ⟨[], cache, true⟩ := by
  have h1 : check_for_new_events mapping cache batches sendOk = ⟨[], cache, true⟩ := by
    simp [check_for_new_events, collectAll_empty mapping cache batches hb,
      sortMessages, dispatch, dispatchFrom, takeLast_of_le 1000 cache hc]
  refine ⟨h1, ?_⟩
  rw [h1]
  exact h1

/-- Witness for C8: two filters, both with no entries, polled against a
one-entry cache. -/
theorem empty_poll_is_noop_witness :
    (∀ b ∈ ([[], []] : List (List RawEvent)), b = []) ∧
    ([100] : List Nat).length ≤ 1000 ∧
    check_for_new_events mapping0 [100] [[], []] sendAll = ⟨[], [100], true⟩ :=
  ⟨by decide, by decide,
    (empty_poll_is_noop mapping0 [100] [[], []] sendAll (by decide) (by decide)).1⟩

unseal Rat.add Rat.mul Rat.inv Rat.sub in
/-- C6: enrichment divides the value of every argument whose key
contains `"amount"` or `"value"` (case-insensitively, line 105) by
10^18; in particular a raw value of 10^18 under key `"amount"` scales to
exactly 1. -/
theorem amount_args_are_scaled (args : List (String × ℚ)) (i : Nat) (k : String) (v : ℚ)
    (h : args[i]? = some (k, v)) (hk : keyMatches k = true) :
    (scale_args args)[i]? = some (k, v / 10 ^ 18) ∧
    scale_args [("amount", (10 : ℚ) ^ 18)] = [("amount", 1)] := by
  refine ⟨?_, by decide⟩
  simp [scale_args, List.getElem?_map, h, hk]

unseal Rat.add Rat.mul Rat.inv Rat.sub in
/-- Witness for C6: the key `"rplAmount"` matches case-insensitively and
its raw value 2·10^18 scales to 2·10^18 / 10^18. -/
theorem amount_args_are_scaled_witness :
    ([("rplAmount", (2 : ℚ) * 10 ^ 18)] : List (String × ℚ))[0]? =
      some ("rplAmount", (2 : ℚ) * 10 ^ 18) ∧
    keyMatches "rplAmount" = true ∧
    (scale_args [("rplAmount", (2 : ℚ) * 10 ^ 18)])[0]? =
      some ("rplAmount", (2 : ℚ) * 10 ^ 18 / 10 ^ 18) :=
  ⟨by decide, by decide,
    (amount_args_are_scaled [("rplAmount", (2 : ℚ) * 10 ^ 18)] 0 "rplAmount"
      ((2 : ℚ) * 10 ^ 18) (by decide) (by decide)).1⟩

unseal Rat.add Rat.mul Rat.inv Rat.sub List.merge List.mergeSort in
/-- C1: the messages a tick dispatches go out in non-decreasing order of
their score, every pending message's score is
`blockNumber + transactionIndex / 1000`, and in the two-events-one-block
scenario (block 500, transaction indices 2 and 5) index 2 is delivered
before index 5. -/
theorem dispatch_order_nondecreasing (mapping : Mapping) (cache : List Nat)
    (batches : List (List RawEvent)) (sendOk : Nat → Bool) :
    (check_for_new_events mapping cache batches sendOk).sent.Pairwise
      (fun a b => a.2.2.score ≤ b.2.2.score) ∧
    (∀ m ∈ (collectAll mapping cache batches).messages,
      m.score = (m.event.blockNumber : ℚ) + (m.event.transactionIndex : ℚ) / 1000) ∧
    (check_for_new_events mapping0 [] [[ev2, ev5]] sendAll).sent.map
      (fun x => x.2.2.event.transactionIndex) = [2, 5] := by
  refine ⟨?_, ?_, by decide⟩
  · unfold check_for_new_events
    by_cases hc : (collectAll mapping cache batches).err
    · simp [hc]
    · have hs := sortMessages_pairwise (collectAll mapping cache batches).messages
      have hsub := dispatchFrom_sublist sendOk
        (sortMessages (collectAll mapping cache batches).messages) 0
      have hp := List.pairwise_map.mp (List.Pairwise.sublist hsub hs)
      by_cases hd :
          (dispatchFrom sendOk 0 (sortMessages (collectAll mapping cache batches).messages)).2 <;>
        simpa [hc, hd, dispatch] using hp
  · have h := foldl_batches_inv mapping
      (fun st => ∀ m ∈ st.messages, m.score = eventScore m.event)
      (fun st e h => collect_score_inv mapping st e h)
      batches ⟨[], cache, false⟩ (by intro m hm; cases hm)
    exact h

unseal Rat.add Rat.mul Rat.inv Rat.sub in
/-- Witness for C1: the block-500, index-5 deposit is pending after the
poll and its score is 500 + 5/1000. -/
theorem dispatch_order_nondecreasing_witness :
    msgEv5 ∈ (collectAll mapping0 [] [[ev2, ev5]]).messages ∧
    msgEv5.score = (msgEv5.event.blockNumber : ℚ) + (msgEv5.event.transactionIndex : ℚ) / 1000 :=
  ⟨by decide,
    (dispatch_order_nondecreasing mapping0 [] [[ev2, ev5]] sendAll).2.1 msgEv5 (by decide)⟩

/-- On a normally completed tick the new cache is exactly the trim of
line 200 applied to the cache grown during collection. -/
theorem tick_ok_cache_eq (mapping : Mapping) (cache : List Nat)
    (batches : List (List RawEvent)) (sendOk : Nat → Bool)
    (h : (check_for_new_events mapping cache batches sendOk).ok = true) :
    (check_for_new_events mapping cache batches sendOk).cache =
      takeLast 1000 (collectAll mapping cache batches).cache := by
  unfold check_for_new_events at h ⊢
  by_cases hc : (collectAll mapping cache batches).err
  · simp [hc] at h
  · by_cases hd : (dispatchFrom sendOk 0 (sortMessages (collectAll mapping cache batches).messages)).2
    · simp [hc, hd, dispatch]
    · simp [hc, hd, dispatch] at h

/-- C3: the cache never exceeds 1000 hashes after a `run_loop`
iteration; when the tick completed normally the new cache is a suffix of
the cache grown during collection (FIFO — only the oldest entries are
dropped), and that grown cache only ever extends the previous one at its
newest end; when the tick failed, the reinitialization that follows in
the same iteration resets the cache to empty. -/
theorem cache_bounded_fifo (config : Mapping) (batches : List (List RawEvent))
    (sendOk : Nat → Bool) (initOk : Bool) (st : CogState) :
    ((run_loop config batches sendOk initOk st).1.tnx_cache.length ≤ 1000) ∧
    (st.loaded = true →
      (check_for_new_events st.mapping st.tnx_cache batches sendOk).ok = true →
      ((run_loop config batches sendOk initOk st).1.tnx_cache <:+
          (collectAll st.mapping st.tnx_cache batches).cache ∧
        ∃ t, (collectAll st.mapping st.tnx_cache batches).cache = st.tnx_cache ++ t)) ∧
    (st.loaded = true →
      (check_for_new_events st.mapping st.tnx_cache batches sendOk).ok = false →
      (run_loop config batches sendOk initOk st).1.tnx_cache = []) := by
  have hext : ∃ t, (collectAll st.mapping st.tnx_cache batches).cache = st.tnx_cache ++ t :=
    foldl_batches_inv st.mapping (fun s => ∃ t, s.cache = st.tnx_cache ++ t)
      (fun s e h => collect_cache_extends st.mapping st.tnx_cache s e h)
      batches ⟨[], st.tnx_cache, false⟩ ⟨[], by simp⟩
  refine ⟨?_, ?_, ?_⟩
  · by_cases hl : st.loaded
    · by_cases hok : (check_for_new_events st.mapping st.tnx_cache batches sendOk).ok
      · simpa [run_loop, hl, hok] using
          tick_ok_cache_le st.mapping st.tnx_cache batches sendOk hok
      · simp [run_loop, hl, hok, reinit_cache]
    · simp [run_loop, hl, reinit_cache]
  · intro hl hok
    have he := tick_ok_cache_eq st.mapping st.tnx_cache batches sendOk hok
    refine ⟨?_, hext⟩
    simpa [run_loop, hl, hok, he] using
      takeLast_suffix 1000 (collectAll st.mapping st.tnx_cache batches).cache
  · intro hl hok
    simp [run_loop, hl, hok, reinit_cache]

unseal Rat.add Rat.mul Rat.inv Rat.sub List.merge List.mergeSort in
/-- Witness for C3: a successful tick over the block-500 deposits,
starting from a loaded state whose cache holds hash 42. -/
theorem cache_bounded_fifo_witness :
    (⟨true, [42], mapping0⟩ : CogState).loaded = true ∧
    (check_for_new_events mapping0 [42] [[ev2, ev5]] sendAll).ok = true ∧
    ((run_loop mapping0 [[ev2, ev5]] sendAll true ⟨true, [42], mapping0⟩).1.tnx_cache <:+
        (collectAll mapping0 [42] [[ev2, ev5]]).cache ∧
      ∃ t, (collectAll mapping0 [42] [[ev2, ev5]]).cache = [42] ++ t) :=
  ⟨rfl, by decide,
    (cache_bounded_fifo mapping0 [[ev2, ev5]] sendAll true ⟨true, [42], mapping0⟩).2.1
      rfl (by decide)⟩

/-- C4 counterexample: from a Healthy state with a cached hash, a tick
that raises (`evBad` comes from an unconfigured address) does NOT leave
the pipeline Unhealthy with the rebuild deferred to the next tick — the
same iteration already rebuilt the state (the cache was reset and the
mapping reloaded) and, the rebuild succeeding, the iteration ends
Healthy. -/
theorem supervisor_counterexample :
    (check_for_new_events mapping0 [42] [[evBad]] sendAll).ok = false ∧
    (run_loop mapping0 [[evBad]] sendAll true ⟨true, [42], mapping0⟩).1 =
      ⟨true, [], mapping0⟩ :=
  ⟨by decide, by decide⟩

/-- C4 amended: a fresh initialization starts Healthy; an uncaught error
during a Healthy tick clears the flag and the same iteration immediately
attempts the rebuild — ending Healthy with fresh state from
configuration when the rebuild succeeds and Unhealthy when it fails —
and an iteration entered Unhealthy attempts the rebuild, success
restoring Healthy. -/
theorem supervisor_recovery (config : Mapping) (batches : List (List RawEvent))
    (sendOk : Nat → Bool) (st stU : CogState)
    (hH : st.loaded = true)
    (hfail : (check_for_new_events st.mapping st.tnx_cache batches sendOk).ok = false)
    (hU : stU.loaded = false) :
    (reinit config true).loaded = true ∧
    (run_loop config batches sendOk true st).1 = ⟨true, [], config⟩ ∧
    (run_loop config batches sendOk false st).1 = ⟨false, [], []⟩ ∧
    (run_loop config batches sendOk true stU).1 = ⟨true, [], config⟩ ∧
    (run_loop config batches sendOk false stU).1 = ⟨false, [], []⟩ := by
  refine ⟨rfl, ?_, ?_, ?_, ?_⟩ <;> simp [run_loop, hH, hfail, hU, reinit]

/-- Witness for C4: the failing tick on `evBad` from a Healthy state,
and recovery of an Unhealthy state by a successful rebuild. -/
theorem supervisor_recovery_witness :
    (⟨true, [42], mapping0⟩ : CogState).loaded = true ∧
    (check_for_new_events mapping0 [42] [[evBad]] sendAll).ok = false ∧
    (⟨false, [7], mapping0⟩ : CogState).loaded = false ∧
    (run_loop mapping0 [[evBad]] sendAll true ⟨false, [7], mapping0⟩).1 =
      ⟨true, [], mapping0⟩ :=
  ⟨rfl, by decide, rfl,
    (supervisor_recovery mapping0 [[evBad]] sendAll ⟨true, [42], mapping0⟩
      ⟨false, [7], mapping0⟩ rfl (by decide) rfl).2.2.2.1⟩

unseal Rat.add Rat.mul Rat.inv Rat.sub List.merge List.mergeSort in
/-- C5 counterexample: the tick over the two block-500 deposits has two
pending messages, the send of message 0 fails, and only index 0 is ever
attempted — index 1 is not, because the send raises out of the loop of
lines 193-197, which has no exception handling. -/
theorem send_failure_counterexample :
    (sortMessages (collectAll mapping0 [] [[ev2, ev5]]).messages).length = 2 ∧
    (check_for_new_events mapping0 [] [[ev2, ev5]] sendFail0).sent.map (fun x => x.1) = [0] :=
  ⟨by decide, by decide⟩

/-- A failing send stops the dispatch loop: with `k` leading successful
sends and a failure at offset `k`, exactly the sends `i0 .. i0 + k` are
attempted and the loop does not complete. -/
theorem dispatchFrom_abort (sendOk : Nat → Bool) :
    ∀ (msgs : List Message) (i0 k : Nat), k < msgs.length →
      (∀ j, j < k → sendOk (i0 + j) = true) → sendOk (i0 + k) = false →
      (dispatchFrom sendOk i0 msgs).1.map (fun x => x.1) = List.range' i0 (k + 1) ∧
      (dispatchFrom sendOk i0 msgs).2 = false
  | [], _, k => by
    intro hk _ _
    exact absurd hk (by simp)
  | m :: rest, i0, k => by
    intro hk hpre hfail
    cases k with
    | zero =>
      have h0 : sendOk i0 = false := by simpa using hfail
      refine ⟨?_, ?_⟩ <;> simp [dispatchFrom, h0, List.range']
    | succ n =>
      have h0 : sendOk i0 = true := hpre 0 (Nat.succ_pos n)
      have hk2 : n < rest.length := by
        simp only [List.length_cons] at hk
        omega
      obtain ⟨ih1, ih2⟩ := dispatchFrom_abort sendOk rest (i0 + 1) n hk2
        (fun j hj => by
          have h := hpre (j + 1) (by omega)
          rw [show i0 + 1 + j = i0 + (j + 1) by omega]
          exact h)
        (by
          rw [show i0 + 1 + n = i0 + (n + 1) by omega]
          exact hfail)
      refine ⟨?_, by simp [dispatchFrom, h0, ih2]⟩
      simp [dispatchFrom, h0, ih1, List.range']

/-- C5 amended: a channel-send failure on one message DOES abort the
delivery of the subsequent messages of the batch — when sends `0 .. i-1`
succeed and send `i` fails, exactly messages `0 .. i` are attempted and
the tick ends in failure; messages `i+1` onward are never attempted. -/
theorem send_failure_aborts_batch (sendOk : Nat → Bool) (msgs : List Message) (i : Nat)
    (hk : i < msgs.length) (hpre : ∀ j, j < i → sendOk j = true) (hfail : sendOk i = false) :
    (dispatch sendOk msgs).1.map (fun x => x.1) = List.range (i + 1) ∧
    (dispatch sendOk msgs).2 = false := by
  have h := dispatchFrom_abort sendOk msgs 0 i hk
    (fun j hj => by simpa using hpre j hj) (by simpa using hfail)
  rw [List.range_eq_range']
  exact ⟨by simpa [dispatch] using h.1, by simpa [dispatch] using h.2⟩

/-- Witness for C5: with the first send failing, only index 0 of the
two-message batch is attempted. -/
theorem send_failure_aborts_batch_witness :
    0 < ([msgEv2, msgEv5] : List Message).length ∧ sendFail0 0 = false ∧
    (dispatch sendFail0 [msgEv2, msgEv5]).1.map (fun x => x.1) = List.range 1 :=
  ⟨by decide, by decide,
    (send_failure_aborts_batch sendFail0 [msgEv2, msgEv5] 0 (by decide)
      (fun j hj => absurd hj (Nat.not_lt_zero j)) (by decide)).1⟩

/-- C9: after a failed tick, the reinitialization of the same iteration
rebuilds the whole state — Healthy flag set, cache empty, mapping
reloaded from configuration — and a transaction hash that sat in the
cache before the failure no longer suppresses anything: an event
carrying it, polled after recovery, is delivered again. -/
theorem reinit_clears_dedup (config : Mapping) (batches : List (List RawEvent))
    (sendOk : Nat → Bool) (oldCache : List Nat) (e : RawEvent)
    (evs : List (String × String)) (nm : String)
    (hfail : (check_for_new_events config oldCache batches sendOk).ok = false)
    (_hmem : e.transactionHash ∈ oldCache)
    (ha : lookupAddr config e.address = some evs)
    (hev : lookupEvent evs e.eventType = some nm) :
    (run_loop config batches sendOk true ⟨true, oldCache, config⟩).1 = ⟨true, [], config⟩ ∧
    (check_for_new_events
        (run_loop config batches sendOk true ⟨true, oldCache, config⟩).1.mapping
        (run_loop config batches sendOk true ⟨true, oldCache, config⟩).1.tnx_cache
        [[e]] (fun _ => true)).sent =
      [(0, isOdao nm, ⟨eventScore e, e, nm⟩)] := by
  have h1 : (run_loop config batches sendOk true ⟨true, oldCache, config⟩).1 =
      ⟨true, [], config⟩ := by
    simp [run_loop, hfail, reinit]
  refine ⟨h1, ?_⟩
  rw [h1]
  simp [check_for_new_events, collectAll, collectBatch, collectEvent, ha, hev,
    sortMessages, dispatch, dispatchFrom]

/-- Witness for C9: hash 100 was delivered before the crash; after the
rebuild triggered by the `evBad` tick, the cache is empty and the state
Healthy again. -/
theorem reinit_clears_dedup_witness :
    (check_for_new_events mapping0 [100] [[evBad]] sendAll).ok = false ∧
    ev2.transactionHash ∈ [100] ∧
    lookupAddr mapping0 ev2.address = some [("Deposit", "pool_deposit")] ∧
    lookupEvent [("Deposit", "pool_deposit")] ev2.eventType = some "pool_deposit" ∧
    (run_loop mapping0 [[evBad]] sendAll true ⟨true, [100], mapping0⟩).1 =
      ⟨true, [], mapping0⟩ :=
  ⟨by decide, by decide, by decide, by decide,
    (reinit_clears_dedup mapping0 [[evBad]] sendAll [100] ev2
      [("Deposit", "pool_deposit")] "pool_deposit"
      (by decide) (by decide) (by decide) (by decide)).1⟩

end RocketPool
